import Mathlib

/-!
Shallow embedding of `compare50/__main__.py`: the command-line orchestrator of
the compare50 similarity checker.  Pure functions model the submission
factory, pass resolution, the top-level run pipeline, the exception hook and
the argument-parser error exit.  External effects (the file system, the lib50
file-discovery call) are abstracted into an `Env` record of functions; the
parts of the repository that are imported by `__main__.py` but whose code is
not available (`_data.Pass` registry, `_api.rank`, `_api.compare`) are
modelled from the specification, as noted on each definition.
-/

deriving instance DecidableEq for Except

namespace Compare50

/-- A lib50 include/exclude glob pattern, as accumulated by
`SubmissionFactory.include` / `SubmissionFactory.exclude`
(`lib50.config.FilePattern`): `included = true` models
`PatternType.Included`, `false` models `PatternType.Excluded`. -/
structure FilePattern where
  included : Bool
  pattern : String
deriving DecidableEq, Repr

/-- Modelled from the spec: a `_data.Submission` (class not under src/) has a
root path, an ordered list of relative file paths and an attached
preprocessor.  The preprocessor is modelled by the list of names of the
composed preprocessor functions (`Preprocessor.preprocessors`). -/
structure Submission where
  path : String
  files : List String
  preprocessor : List String
deriving DecidableEq, Repr

/-- Modelled from the spec: a `_data.Pass` (class not under src/) is a name
bound to an ordered preprocessor list (the comparator variant plays no role
in the orchestration code under verification). -/
structure Pass where
  name : String
  preprocessors : List String
deriving DecidableEq, Repr

/-- The ambient file system and file-discovery library, abstracted:
`isFile` says whether a path is a regular file, `fileName`/`parentDir` give
`path.name` and `path.parent`, `files50 patterns root` models the included
list returned by `lib50.files(patterns, root=root, always_exclude=[])`, and
`decodes root rel` says whether opening `root / rel` and reading it succeeds
without a `UnicodeDecodeError`. -/
structure Env where
  isFile : String → Bool
  fileName : String → String
  parentDir : String → String
  files50 : List FilePattern → String → List String
  decodes : String → String → Bool

/-- Lexicographic comparison of code-point lists, the order Python uses to
compare strings (`sorted` on `str`). -/
def charListLe : List Char → List Char → Bool
  | [], _ => true
  | _ :: _, [] => false
  | a :: as, b :: bs =>
    if a.toNat < b.toNat then true
    else if b.toNat < a.toNat then false
    else charListLe as bs

/-- Python string comparison `a <= b`: lexicographic on code points. -/
def strLe (a b : String) : Bool := charListLe a.data b.data

namespace SubmissionFactory

/-- The root a submission is built over in `_get`: the parent directory when
the supplied path is a regular file (`path = path.parent`), the path itself
otherwise. -/
def rootOf (env : Env) (path : String) : String :=
  if env.isFile path then env.parentDir path else path

/-- The `included` list of `_get`: just the file itself when the supplied
path is a regular file (`included = [path.name]`, the glob patterns are not
consulted), otherwise the files lib50 discovers under the patterns. -/
def includedOf (env : Env) (pats : List FilePattern) (path : String) :
    List String :=
  if env.isFile path then [env.fileName path] else env.files50 pats path

/-- `SubmissionFactory._get(path, preprocessor)`: if the path is a regular
file, include just that file and re-root at its parent, otherwise ask lib50
for the included files under the accumulated patterns; keep the files that
decode, fail with the domain error `Empty submission` if none do, and build
the submission over the sorted decodable files. -/
def get (env : Env) (pats : List FilePattern) (path : String)
    (preprocessor : List String) : Except String Submission :=
  let root := rootOf env path
  let decodable_files :=
    (includedOf env pats path).filter (fun f => env.decodes root f)
  if decodable_files = [] then
    Except.error ("Empty submission: " ++ root)
  else
    Except.ok ⟨root, decodable_files.insertionSort (fun a b => strLe a b = true),
      preprocessor⟩

/-- `SubmissionFactory.get_all(paths, preprocessor)`: build a submission per
path, silently dropping every path whose construction raises the domain
`Error`, collecting the results into a set.  The Python `set` is modelled as
a duplicate-free list grown by `List.insert` (add if not already present). -/
def get_all (env : Env) (pats : List FilePattern) (paths : List String)
    (preprocessor : List String) : List Submission :=
  paths.foldl
    (fun subs sub_path =>
      match get env pats sub_path preprocessor with
      | Except.ok s => subs.insert s
      | Except.error _ => subs)
    []

end SubmissionFactory

/-- Modelled from the spec: the pass registry (`_data.Pass._get`, not under
src/) resolves a name to a pass from a static registry; an unknown name
raises `KeyError`, modelled by `none`. -/
def Pass.get (registry : List Pass) (name : String) : Option Pass :=
  registry.find? (fun p => p.name == name)

/-- Python formatting of the list of pass names, as in
`[c.__name__ for c in _data.Pass._get_all()]` interpolated into the error
message (quoting of the individual names is elided). -/
def pyListFormat (names : List String) : String :=
  "[" ++ String.intercalate ", " names ++ "]"

/-- The `_api.Error` message built in `main` when `Pass._get` raises
`KeyError`: the offending name followed by the enumeration of all valid
pass names. -/
def passErrorMsg (name : String) (registry : List Pass) : String :=
  name ++ " is not a pass, try one of these: "
       ++ pyListFormat (registry.map Pass.name)

/-- `passes = [_data.Pass._get(pass_) for pass_ in args.passes]` with the
`KeyError` handler of `main` (lines 239-243): the first unknown name aborts
the comprehension and is re-raised as a domain `Error` carrying
`passErrorMsg`. -/
def resolvePasses (registry : List Pass) : List String → Except String (List Pass)
  | [] => Except.ok []
  | n :: ns =>
    match Pass.get registry n with
    | some p => (resolvePasses registry ns).map (fun ps => p :: ps)
    | none => Except.error (passErrorMsg n registry)

/-- The value of `args.n`: `parser.add_argument("-n", action="store",
default=50, type=int)` — `50` when the flag is absent, the supplied integer
unchanged otherwise. -/
def parseN (supplied : Option Int) : Int :=
  match supplied with
  | none => 50
  | some k => k

/-! ## The exception hook and the argument-parser error exit -/

/-- An uncaught Python exception as seen by `excepthook`: its class tested
against `_api.Error`, `lib50.Error`, `FileNotFoundError`, `Exception` and
`KeyboardInterrupt`, whether `exc.args` is non-empty, `str(exc)`, and
`exc.filename` (meaningful for `FileNotFoundError`). -/
structure Exc where
  isApiError : Bool
  isLib50Error : Bool
  isFileNotFound : Bool
  subclassOfException : Bool
  isKeyboardInterrupt : Bool
  hasArgs : Bool
  msg : String
  filename : String
deriving DecidableEq, Repr

/-- Observable outcome of an error path: the message printed to stderr (if
any), whether the traceback was printed, and the exit code passed to
`sys.exit` (`none` when the hook returns without exiting). -/
structure HookResult where
  message : Option String
  tracebackPrinted : Bool
  exitCode : Option Nat
deriving DecidableEq, Repr

/-- The fixed generic message for unexpected errors. -/
def genericMsg : String :=
  "Sorry, something is wrong! Let sysadmins@cs50.harvard.edu know!"

/-- `excepthook(cls, exc, tb)` (lines 20-35): a domain error
(`_api.Error` / `lib50.Error` with args) prints its own message; a
`FileNotFoundError` prints `"<filename> not found"`; any other
`BaseException` that is not an `Exception` and not a `KeyboardInterrupt` is
let go (no message, no exit); everything else gets the generic message.  In
the non-let-go cases the traceback is printed exactly when verbose mode is
on and the process exits with code 1. -/
def excepthook (verbose : Bool) (e : Exc) : HookResult :=
  if (e.isApiError || e.isLib50Error) && e.hasArgs then
    ⟨some e.msg, verbose, some 1⟩
  else if e.isFileNotFound then
    ⟨some (e.filename ++ " not found"), verbose, some 1⟩
  else if !e.subclassOfException && !e.isKeyboardInterrupt then
    ⟨none, false, none⟩
  else
    ⟨some genericMsg, verbose, some 1⟩

namespace ArgParser

/-- `ArgParser.error(message)` (lines 95-99): print help and the message,
then `sys.exit(2)`. -/
def error (message : String) : HookResult :=
  ⟨some ("error: " ++ message), false, some 2⟩

end ArgParser

/-! ## The `main` pipeline -/

/-- An observable call performed by `main` after submission collection:
the single ranking call (`_api.rank(..., passes[0], n=args.n)`, recording
the pass name and `n`), one comparison call per requested pass
(`_api.compare(scores, ignored_files, pass_)`), and the final rendering
call. -/
inductive Phase where
  | rank (passName : String) (n : Int)
  | compare (passName : String)
  | render
deriving DecidableEq, Repr

/-- The command-line arguments relevant to the pipeline. -/
structure Config where
  submissions : List String
  archive : List String
  distro : List String
  passNames : List String
  n : Int
deriving Repr

/-- Outcome of a run: the calls performed in order, the final result
(`Except.error` when a domain error aborts the run), and the final state of
all submission objects (regular, archive, then distro, in `itertools.chain`
order) after the per-pass `object.__setattr__` updates. -/
structure RunOut where
  trace : List Phase
  result : Except String Unit
  finalSubs : List Submission
deriving DecidableEq, Repr

/-- The loop `for pass_ in passes:` (lines 294-299): per pass, rebuild the
composed preprocessor from the pass, reassign the `preprocessor` field of
every submission object via `object.__setattr__`, and run `_api.compare`
with the pass alongside. -/
def passLoop : List Pass → List Submission → List Phase × List Submission
  | [], state => ([], state)
  | p :: ps, state =>
    let state1 := state.map (fun s => { s with preprocessor := p.preprocessors })
    let rec1 := passLoop ps state1
    (Phase.compare p.name :: rec1.1, rec1.2)

/-- The submission objects as built during the preparing phase, in
`itertools.chain(subs, archive_subs, ignored_subs)` order. -/
def initialState (env : Env) (pats : List FilePattern) (cfg : Config)
    (preprocessor : List String) : List Submission :=
  SubmissionFactory.get_all env pats cfg.submissions preprocessor
    ++ SubmissionFactory.get_all env pats cfg.archive preprocessor
    ++ SubmissionFactory.get_all env pats cfg.distro preprocessor

/-- `main` from pass resolution onward (lines 239-303, the interactive
output-overwrite prompt elided): resolve the passes (unknown name → domain
error), take the first pass's preprocessor, collect regular, archive and
distro submissions (failing paths dropped), abort with a domain error if
fewer than two regular-plus-archive submissions remain, otherwise rank once
with the first pass and `args.n`, run the comparison loop over every pass,
and render. -/
def mainRun (env : Env) (registry : List Pass) (pats : List FilePattern)
    (cfg : Config) : RunOut :=
  match resolvePasses registry cfg.passNames with
  | Except.error m => ⟨[], Except.error m, []⟩
  | Except.ok passes =>
    match passes with
    | [] => ⟨[], Except.error "IndexError: list index out of range", []⟩
    | p1 :: rest =>
      let preprocessor := p1.preprocessors
      let subs := SubmissionFactory.get_all env pats cfg.submissions preprocessor
      let archive_subs := SubmissionFactory.get_all env pats cfg.archive preprocessor
      let state := initialState env pats cfg preprocessor
      if subs.length + archive_subs.length < 2 then
        ⟨[], Except.error
          "At least two non-empty submissions are required for a comparison.",
          state⟩
      else
        let res := passLoop (p1 :: rest) state
        ⟨Phase.rank p1.name cfg.n :: res.1 ++ [Phase.render],
          Except.ok (), res.2⟩

/-! ## Concrete fixtures used to evaluate the definitions -/

/-- A small concrete file system: `dirA` holds two decodable files (listed
unsorted by discovery), `dirB` one, `dirE` only an undecodable binary file,
and `sub/f.txt` is a regular file whose parent is `sub`. -/
def env0 : Env where
  isFile p := p == "sub/f.txt"
  fileName _ := "f.txt"
  parentDir _ := "sub"
  files50 _ root :=
    if root == "dirA" then ["b.py", "a.py"]
    else if root == "dirB" then ["c.py"]
    else if root == "dirE" then ["bin.dat"]
    else []
  decodes _ f := !(f == "bin.dat")

/-- A pass registry fixture: two passes with distinct preprocessor lists. -/
def reg0 : List Pass :=
  [⟨"structure", ["normalize"]⟩, ⟨"text", ["strip"]⟩]

/-- An uncaught `FileNotFoundError` as `excepthook` sees it: not a domain
error, a subclass of `Exception`, with a filename. -/
def fnfExc : Exc where
  isApiError := false
  isLib50Error := false
  isFileNotFound := true
  subclassOfException := true
  isKeyboardInterrupt := false
  hasArgs := true
  msg := "No such file or directory: missing.txt"
  filename := "missing.txt"

/-- The submission built from `dirA` under the first fixture pass. -/
def sub0 : Submission := ⟨"dirA", ["a.py", "b.py"], ["normalize"]⟩

/-- A run over a single valid submission path (plus one that fails
construction): after dropping, fewer than two submissions remain. -/
def cfg1 : Config :=
  { submissions := ["dirA", "dirE"], archive := [], distro := [],
    passNames := ["structure"], n := 50 }

/-- A run over two valid submission paths with both passes requested. -/
def cfg2 : Config :=
  { submissions := ["dirA", "dirB"], archive := [], distro := [],
    passNames := ["structure", "text"], n := 50 }

/-! ## Helper lemmas -/

theorem charListLe_total : ∀ as bs : List Char,
    charListLe as bs = true ∨ charListLe bs as = true
  | [], _ => Or.inl rfl
  | _ :: _, [] => Or.inr rfl
  | a :: as, b :: bs => by
    rcases Nat.lt_trichotomy a.toNat b.toNat with h | h | h
    · left; simp [charListLe, h]
    · have h1 : ¬ a.toNat < b.toNat := by omega
      have h2 : ¬ b.toNat < a.toNat := by omega
      rcases charListLe_total as bs with ih | ih
      · left; simp [charListLe, h1, h2, ih]
      · right; simp [charListLe, h1, h2, ih]
    · right; simp [charListLe, h]

theorem charListLe_trans : ∀ as bs cs : List Char,
    charListLe as bs = true → charListLe bs cs = true → charListLe as cs = true
  | [], _, _, _, _ => rfl
  | _ :: _, [], _, h1, _ => by simp [charListLe] at h1
  | _ :: _, _ :: _, [], _, h2 => by simp [charListLe] at h2
  | a :: as, b :: bs, c :: cs, h1, h2 => by
    simp only [charListLe] at h1 h2 ⊢
    rcases Nat.lt_trichotomy a.toNat b.toNat with hab | hab | hab
    · rcases Nat.lt_trichotomy b.toNat c.toNat with hbc | hbc | hbc
      · simp [show a.toNat < c.toNat by omega]
      · simp [show a.toNat < c.toNat by omega]
      · simp [show ¬ b.toNat < c.toNat by omega,
          show c.toNat < b.toNat by omega] at h2
    · rcases Nat.lt_trichotomy b.toNat c.toNat with hbc | hbc | hbc
      · simp [show a.toNat < c.toNat by omega]
      · rw [if_neg (show ¬ a.toNat < b.toNat by omega),
          if_neg (show ¬ b.toNat < a.toNat by omega)] at h1
        rw [if_neg (show ¬ b.toNat < c.toNat by omega),
          if_neg (show ¬ c.toNat < b.toNat by omega)] at h2
        rw [if_neg (show ¬ a.toNat < c.toNat by omega),
          if_neg (show ¬ c.toNat < a.toNat by omega)]
        exact charListLe_trans as bs cs h1 h2
      · simp [show ¬ b.toNat < c.toNat by omega,
          show c.toNat < b.toNat by omega] at h2
    · simp [show ¬ a.toNat < b.toNat by omega,
        show b.toNat < a.toNat by omega] at h1

theorem strLe_total (a b : String) : strLe a b = true ∨ strLe b a = true :=
  charListLe_total a.data b.data

theorem strLe_trans (a b c : String) :
    strLe a b = true → strLe b c = true → strLe a c = true :=
  charListLe_trans a.data b.data c.data

theorem sorted_insertionSort_strLe (l : List String) :
    (l.insertionSort (fun a b => strLe a b = true)).Sorted
      (fun a b => strLe a b = true) :=
  @List.sorted_insertionSort String (fun a b => strLe a b = true) _
    ⟨strLe_total⟩ ⟨fun _ _ _ => strLe_trans _ _ _⟩ l

namespace SubmissionFactory

theorem mem_get_all_aux (env : Env) (pats : List FilePattern)
    (pre : List String) :
    ∀ (paths : List String) (acc : List Submission) (s : Submission),
      (s ∈ paths.foldl
          (fun subs sub_path =>
            match get env pats sub_path pre with
            | Except.ok t => subs.insert t
            | Except.error _ => subs)
          acc)
        ↔ s ∈ acc ∨ ∃ p ∈ paths, get env pats p pre = Except.ok s
  | [], acc, s => by simp
  | q :: qs, acc, s => by
    simp only [List.foldl_cons]
    cases hq : get env pats q pre with
    | ok t =>
      simp only [hq]
      rw [mem_get_all_aux env pats pre qs]
      simp only [List.mem_insert_iff, List.mem_cons]
      constructor
      · rintro (⟨rfl | hs⟩ | ⟨p, hp, hps⟩)
        · exact Or.inr ⟨q, Or.inl rfl, hq⟩
        · exact Or.inl hs
        · exact Or.inr ⟨p, Or.inr hp, hps⟩
      · rintro (hs | ⟨p, rfl | hp, hps⟩)
        · exact Or.inl (Or.inr hs)
        · rw [hq] at hps
          exact Or.inl (Or.inl (Except.ok.inj hps).symm)
        · exact Or.inr ⟨p, hp, hps⟩
    | error m =>
      simp only [hq]
      rw [mem_get_all_aux env pats pre qs]
      simp only [List.mem_cons]
      constructor
      · rintro (hs | ⟨p, hp, hps⟩)
        · exact Or.inl hs
        · exact Or.inr ⟨p, Or.inr hp, hps⟩
      · rintro (hs | ⟨p, rfl | hp, hps⟩)
        · exact Or.inl hs
        · rw [hq] at hps; exact absurd hps (by simp)
        · exact Or.inr ⟨p, hp, hps⟩

theorem mem_get_all (env : Env) (pats : List FilePattern) (pre : List String)
    (paths : List String) (s : Submission) :
    s ∈ get_all env pats paths pre
      ↔ ∃ p ∈ paths, get env pats p pre = Except.ok s := by
  rw [get_all, mem_get_all_aux env pats pre paths [] s]
  simp

theorem get_all_nodup_aux (env : Env) (pats : List FilePattern)
    (pre : List String) :
    ∀ (paths : List String) (acc : List Submission), acc.Nodup →
      (paths.foldl
          (fun subs sub_path =>
            match get env pats sub_path pre with
            | Except.ok t => subs.insert t
            | Except.error _ => subs)
          acc).Nodup
  | [], _, h => h
  | q :: qs, acc, h => by
    simp only [List.foldl_cons]
    cases hq : get env pats q pre with
    | ok t =>
      simp only [hq]
      exact get_all_nodup_aux env pats pre qs _ h.insert
    | error m =>
      simp only [hq]
      exact get_all_nodup_aux env pats pre qs _ h

theorem get_all_nodup (env : Env) (pats : List FilePattern)
    (pre : List String) (paths : List String) :
    (get_all env pats paths pre).Nodup :=
  get_all_nodup_aux env pats pre paths [] List.nodup_nil

end SubmissionFactory

theorem exceptMap_error_iff {α β γ : Type} (e : Except α β) (f : β → γ)
    (m : α) : e.map f = Except.error m ↔ e = Except.error m := by
  cases e <;> simp [Except.map]

theorem passLoop_trace : ∀ (ps : List Pass) (state : List Submission),
    (passLoop ps state).1 = ps.map (fun p => Phase.compare p.name)
  | [], _ => rfl
  | p :: ps, state => by
    simp only [passLoop, List.map_cons]
    exact congrArg _ (passLoop_trace ps _)

theorem passLoop_final : ∀ (ps : List Pass) (state : List Submission)
    (hne : ps ≠ []),
    (passLoop ps state).2
      = state.map (fun s =>
          { s with preprocessor := (ps.getLast hne).preprocessors })
  | [], _, hne => absurd rfl hne
  | [_], _, _ => rfl
  | p :: q :: qs, state, _ => by
    have h1 : (passLoop (p :: q :: qs) state).2
        = (passLoop (q :: qs) (state.map (fun s =>
            { s with preprocessor := p.preprocessors }))).2 := rfl
    rw [h1, passLoop_final (q :: qs) _ (List.cons_ne_nil q qs), List.map_map,
      List.getLast_cons (List.cons_ne_nil q qs)]
    rfl

/-- Recognizes the ranking call in a trace. -/
def isRank : Phase → Bool
  | Phase.rank _ _ => true
  | _ => false

theorem countP_isRank_map_compare (ps : List Pass) :
    ((ps.map (fun p => Phase.compare p.name)).countP isRank) = 0 := by
  induction ps with
  | nil => rfl
  | cons p ps ih => simp [List.countP_cons, isRank, ih]

/-- Shape of a successful run: ranking once with the first pass and `args.n`,
then one comparison per requested pass in order, then rendering; the final
submission state is the built one with every preprocessor field overwritten
by the last pass's preprocessors. -/
theorem mainRun_ok (env : Env) (registry : List Pass)
    (pats : List FilePattern) (cfg : Config) (p1 : Pass) (rest : List Pass)
    (hres : resolvePasses registry cfg.passNames = Except.ok (p1 :: rest))
    (hok : (mainRun env registry pats cfg).result = Except.ok ()) :
    (mainRun env registry pats cfg).trace
      = Phase.rank p1.name cfg.n
          :: (p1 :: rest).map (fun p => Phase.compare p.name)
          ++ [Phase.render]
    ∧ (mainRun env registry pats cfg).finalSubs
      = (initialState env pats cfg p1.preprocessors).map
          (fun s => { s with preprocessor :=
            ((p1 :: rest).getLast (List.cons_ne_nil p1 rest)).preprocessors }) := by
  simp only [mainRun, hres] at hok ⊢
  by_cases hlt :
      (SubmissionFactory.get_all env pats cfg.submissions p1.preprocessors).length
        + (SubmissionFactory.get_all env pats cfg.archive p1.preprocessors).length
        < 2
  · rw [if_pos hlt] at hok
    exact absurd hok (by simp)
  · rw [if_neg hlt]
    constructor
    · show Phase.rank p1.name cfg.n :: (passLoop (p1 :: rest) _).1 ++ [Phase.render] = _
      rw [passLoop_trace]
    · show (passLoop (p1 :: rest) _).2 = _
      rw [passLoop_final (p1 :: rest) _ (List.cons_ne_nil p1 rest)]

/-! ## Claim theorems -/

/-- C3: resolving the requested pass names fails with a domain error exactly
when some requested name is unknown to the registry; the error carries the
message built from the first unknown name, which is that name followed by
the enumeration of all valid pass names; when every name is known no such
error is raised. -/
theorem c3_unknown_pass (registry : List Pass) (names : List String) :
    ((∃ m, resolvePasses registry names = Except.error m)
      ↔ ∃ n ∈ names, Pass.get registry n = none)
    ∧ (∀ u, names.find? (fun n => (Pass.get registry n).isNone) = some u →
        resolvePasses registry names = Except.error (passErrorMsg u registry))
    ∧ (∀ u, passErrorMsg u registry
        = u ++ " is not a pass, try one of these: "
            ++ pyListFormat (registry.map Pass.name)) := by
  refine ⟨?_, ?_, fun u => rfl⟩
  · induction names with
    | nil => simp [resolvePasses]
    | cons n ns ih =>
      cases h : Pass.get registry n with
      | some p =>
        simp only [resolvePasses, h]
        constructor
        · rintro ⟨m, hm⟩
          rw [exceptMap_error_iff] at hm
          rcases ih.mp ⟨m, hm⟩ with ⟨x, hx, hxn⟩
          exact ⟨x, List.mem_cons_of_mem _ hx, hxn⟩
        · rintro ⟨x, hx, hxn⟩
          rcases List.mem_cons.mp hx with rfl | hx
          · rw [h] at hxn; cases hxn
          · rcases ih.mpr ⟨x, hx, hxn⟩ with ⟨m, hm⟩
            exact ⟨m, by rw [hm]; rfl⟩
      | none =>
        simp only [resolvePasses, h]
        constructor
        · intro _; exact ⟨n, List.mem_cons_self n ns, h⟩
        · intro _; exact ⟨passErrorMsg n registry, rfl⟩
  · induction names with
    | nil => intro u hu; simp at hu
    | cons n ns ih =>
      intro u hu
      cases h : Pass.get registry n with
      | none =>
        simp only [List.find?_cons, h, Option.isNone_none, cond_true] at hu
        cases hu
        simp [resolvePasses, h]
      | some p =>
        simp only [List.find?_cons, h, Option.isNone_some, cond_false] at hu
        simp only [resolvePasses, h, ih u hu]
        rfl

/-- C3 witness: on the fixture registry, requesting the unknown name `nope`
fails with the message naming `nope` and listing the valid passes, while
requesting the two known names succeeds. -/
theorem c3_unknown_pass_witness :
    (∃ m, resolvePasses reg0 ["structure", "nope"] = Except.error m)
    ∧ resolvePasses reg0 ["structure", "nope"]
        = Except.error (passErrorMsg "nope" reg0)
    ∧ passErrorMsg "nope" reg0
        = "nope is not a pass, try one of these: [structure, text]" := by
  refine ⟨(c3_unknown_pass reg0 ["structure", "nope"]).1.mpr
      ⟨"nope", by decide, by decide⟩,
    (c3_unknown_pass reg0 ["structure", "nope"]).2.1 "nope" (by decide),
    by decide⟩

/-- C6: the argument-parser failure exit code is 2, every exit taken by the
exception hook (domain or runtime failure after parsing) uses code 1, and
the two are distinct. -/
theorem c6_exit_codes (message : String) (verbose : Bool) (e : Exc) :
    (ArgParser.error message).exitCode = some 2
    ∧ (∀ c, (excepthook verbose e).exitCode = some c → c = 1)
    ∧ (2 : Nat) ≠ 1 := by
  refine ⟨rfl, ?_, by decide⟩
  intro c hc
  rw [excepthook] at hc
  split_ifs at hc <;> simp_all

/-- C6 witness: a concrete parse failure exits with 2, a concrete uncaught
`FileNotFoundError` exits with 1. -/
theorem c6_exit_codes_witness :
    (ArgParser.error "the following arguments are required: submissions").exitCode
        = some 2
    ∧ (1 : Nat) = 1 :=
  ⟨(c6_exit_codes "the following arguments are required: submissions" true
      fnfExc).1,
    (c6_exit_codes "the following arguments are required: submissions" true
      fnfExc).2.1 1 (by decide)⟩

/-- C9: for a submission path that is a regular file, the submission is
rooted at the parent directory and holds exactly that single file when it
decodes (construction fails as an empty submission otherwise), and the
configured include/exclude patterns play no role in the result. -/
theorem c9_single_file (env : Env) (pats pats2 : List FilePattern)
    (path : String) (pre : List String) (hfile : env.isFile path = true) :
    SubmissionFactory.get env pats path pre
      = (if env.decodes (env.parentDir path) (env.fileName path) = true then
          Except.ok ⟨env.parentDir path, [env.fileName path], pre⟩
        else
          Except.error ("Empty submission: " ++ env.parentDir path))
    ∧ SubmissionFactory.get env pats path pre
        = SubmissionFactory.get env pats2 path pre := by
  have key : ∀ ps : List FilePattern,
      SubmissionFactory.get env ps path pre
        = (if env.decodes (env.parentDir path) (env.fileName path) = true then
            Except.ok ⟨env.parentDir path, [env.fileName path], pre⟩
          else
            Except.error ("Empty submission: " ++ env.parentDir path)) := by
    intro ps
    rw [SubmissionFactory.get]
    simp only [SubmissionFactory.rootOf, SubmissionFactory.includedOf, hfile,
      if_true]
    cases hd : env.decodes (env.parentDir path) (env.fileName path) <;>
      simp [hd, List.filter, List.insertionSort, List.orderedInsert]
  exact ⟨key pats, (key pats).trans (key pats2).symm⟩

/-- C9 witness: the regular-file path `sub/f.txt` yields a submission rooted
at `sub` containing only `f.txt`, unchanged by an exclude-everything
pattern list. -/
theorem c9_single_file_witness :
    SubmissionFactory.get env0 [] "sub/f.txt" ["normalize"]
      = Except.ok ⟨"sub", ["f.txt"], ["normalize"]⟩
    ∧ SubmissionFactory.get env0 [] "sub/f.txt" ["normalize"]
      = SubmissionFactory.get env0 [⟨false, "*"⟩] "sub/f.txt" ["normalize"] := by
  have h := c9_single_file env0 [] [⟨false, "*"⟩] "sub/f.txt" ["normalize"]
    (by decide)
  exact ⟨h.1.trans (by decide), h.2⟩

/-- C7: a successfully constructed submission's file list holds exactly the
discovered included files that decode as text, sorted in Python string
order and duplicate-free (the discovery result being duplicate-free, as the
file-discovery interface guarantees); files that fail to decode are
excluded. -/
theorem c7_files_exact_sorted_nodup (env : Env) (pats : List FilePattern)
    (path : String) (pre : List String) (s : Submission)
    (hnodup : (env.files50 pats path).Nodup)
    (h : SubmissionFactory.get env pats path pre = Except.ok s) :
    (∀ f, f ∈ s.files
        ↔ f ∈ SubmissionFactory.includedOf env pats path
          ∧ env.decodes (SubmissionFactory.rootOf env path) f = true)
    ∧ s.files.Sorted (fun a b => strLe a b = true)
    ∧ s.files.Nodup := by
  simp only [SubmissionFactory.get] at h
  by_cases hemp : (SubmissionFactory.includedOf env pats path).filter
      (fun f => env.decodes (SubmissionFactory.rootOf env path) f) = []
  · rw [if_pos hemp] at h
    exact absurd h (by simp)
  · rw [if_neg hemp] at h
    injection h with h
    subst h
    dsimp only
    refine ⟨?_, ?_, ?_⟩
    · intro f
      rw [List.Perm.mem_iff (List.perm_insertionSort _ _), List.mem_filter]
    · exact sorted_insertionSort_strLe _
    · have hinc : (SubmissionFactory.includedOf env pats path).Nodup := by
        rw [SubmissionFactory.includedOf]
        split
        · exact List.nodup_singleton _
        · exact hnodup
      exact ((List.perm_insertionSort _ _).nodup_iff).mpr (hinc.filter _)

/-- C7 witness: the submission built from `dirA` holds exactly the decodable
discovered files, sorted and duplicate-free. -/
theorem c7_files_witness :
    (∀ f, f ∈ sub0.files
        ↔ f ∈ SubmissionFactory.includedOf env0 [] "dirA"
          ∧ env0.decodes (SubmissionFactory.rootOf env0 "dirA") f = true)
    ∧ sub0.files.Sorted (fun a b => strLe a b = true)
    ∧ sub0.files.Nodup :=
  c7_files_exact_sorted_nodup env0 [] "dirA" ["normalize"] sub0
    (by decide) (by decide)

/-- C8: `get_all` deduplicates and silently drops failing paths: a
submission is in the result exactly when some supplied path constructs it
successfully (paths raising the domain error contribute nothing and do not
abort), and the resulting collection is duplicate-free, so equal
submissions from different paths appear once. -/
theorem c8_get_all_set (env : Env) (pats : List FilePattern)
    (paths : List String) (pre : List String) :
    (∀ s, s ∈ SubmissionFactory.get_all env pats paths pre
        ↔ ∃ p ∈ paths, SubmissionFactory.get env pats p pre = Except.ok s)
    ∧ (SubmissionFactory.get_all env pats paths pre).Nodup :=
  ⟨fun s => SubmissionFactory.mem_get_all env pats pre paths s,
    SubmissionFactory.get_all_nodup env pats pre paths⟩

/-- C1: a submission path whose construction fails (zero decodable files)
is dropped from the collection without failing the run, and the run aborts
with the domain error — before any ranking, comparison or rendering call —
exactly when fewer than two regular-plus-archive submissions remain after
dropping. -/
theorem c1_drop_then_abort (env : Env) (registry : List Pass)
    (pats : List FilePattern) (cfg : Config) (p1 : Pass) (rest : List Pass)
    (hres : resolvePasses registry cfg.passNames = Except.ok (p1 :: rest)) :
    (∀ (path : String) (paths : List String) (pre : List String) (m : String),
        SubmissionFactory.get env pats path pre = Except.error m →
        SubmissionFactory.get_all env pats (path :: paths) pre
          = SubmissionFactory.get_all env pats paths pre)
    ∧ (((mainRun env registry pats cfg).result
          = Except.error
            "At least two non-empty submissions are required for a comparison."
        ∧ (mainRun env registry pats cfg).trace = [])
      ↔ (SubmissionFactory.get_all env pats cfg.submissions
            p1.preprocessors).length
          + (SubmissionFactory.get_all env pats cfg.archive
              p1.preprocessors).length < 2) := by
  constructor
  · intro path paths pre m hm
    simp only [SubmissionFactory.get_all, List.foldl_cons, hm]
  · simp only [mainRun, hres]
    by_cases hlt :
        (SubmissionFactory.get_all env pats cfg.submissions
            p1.preprocessors).length
          + (SubmissionFactory.get_all env pats cfg.archive
              p1.preprocessors).length < 2
    · rw [if_pos hlt]
      exact iff_of_true ⟨rfl, rfl⟩ hlt
    · rw [if_neg hlt]
      exact iff_of_false (fun h => by cases h.1) hlt

/-- C1 witness: with paths `dirA` (valid) and `dirE` (zero decodable files,
dropped) and no archive submissions, only one submission remains, so the
run aborts with the domain error before any phase runs. -/
theorem c1_drop_then_abort_witness :
    (mainRun env0 reg0 [] cfg1).result
      = Except.error
        "At least two non-empty submissions are required for a comparison."
    ∧ (mainRun env0 reg0 [] cfg1).trace = [] :=
  (c1_drop_then_abort env0 reg0 [] cfg1 ⟨"structure", ["normalize"]⟩ []
    (by decide)).2.mpr (by decide)

/-- C2 counterexample: on a two-submission, two-pass run, the submissions
are built with the first pass's preprocessor, the run succeeds, and
afterwards every submission's `preprocessor` field holds the second pass's
preprocessor — the field was reassigned in place during the pass loop, so
the claim that no field of a built submission is mutated fails. -/
theorem c2_immutability_counterexample :
    (mainRun env0 reg0 [] cfg2).result = Except.ok ()
    ∧ (initialState env0 [] cfg2 ["normalize"]).map Submission.preprocessor
        = [["normalize"], ["normalize"]]
    ∧ (mainRun env0 reg0 [] cfg2).finalSubs.map Submission.preprocessor
        = [["strip"], ["strip"]]
    ∧ (mainRun env0 reg0 [] cfg2).finalSubs
        ≠ initialState env0 [] cfg2 ["normalize"] := by
  decide

/-- C2 (amended): the `preprocessor` field of every built submission is
reassigned in place once per requested pass (via `object.__setattr__`,
bypassing the frozen class), so after a successful run every submission
carries the last pass's preprocessor; the pass itself is additionally
passed alongside to each comparison call. -/
theorem c2_preprocessor_reassigned (env : Env) (registry : List Pass)
    (pats : List FilePattern) (cfg : Config) (p1 : Pass) (rest : List Pass)
    (hres : resolvePasses registry cfg.passNames = Except.ok (p1 :: rest))
    (hok : (mainRun env registry pats cfg).result = Except.ok ()) :
    (mainRun env registry pats cfg).finalSubs
      = (initialState env pats cfg p1.preprocessors).map
          (fun s => { s with preprocessor :=
            ((p1 :: rest).getLast (List.cons_ne_nil p1 rest)).preprocessors })
    ∧ ∀ p ∈ p1 :: rest,
        Phase.compare p.name ∈ (mainRun env registry pats cfg).trace := by
  have h := mainRun_ok env registry pats cfg p1 rest hres hok
  refine ⟨h.2, fun p hp => ?_⟩
  rw [h.1]
  exact List.mem_cons_of_mem _
    (List.mem_append_left _ (List.mem_map_of_mem _ hp))

/-- C2 (amended) witness: on the concrete two-pass run the final submissions
carry the preprocessor of the last pass and both comparison calls appear in
the trace. -/
theorem c2_preprocessor_reassigned_witness :
    (mainRun env0 reg0 [] cfg2).finalSubs
      = (initialState env0 [] cfg2 ["normalize"]).map
          (fun s => { s with preprocessor := ["strip"] })
    ∧ Phase.compare "text" ∈ (mainRun env0 reg0 [] cfg2).trace := by
  have h := c2_preprocessor_reassigned env0 reg0 [] cfg2
    ⟨"structure", ["normalize"]⟩ [⟨"text", ["strip"]⟩] (by decide) (by decide)
  exact ⟨h.1, h.2 ⟨"text", ["strip"]⟩ (by decide)⟩

/-- C4: on a successful run, ranking is performed exactly once — first in
the trace, with the first requested pass and the configured `n` — and the
comparison step runs once per requested pass, in order, before rendering. -/
theorem c4_rank_first_compare_all (env : Env) (registry : List Pass)
    (pats : List FilePattern) (cfg : Config) (p1 : Pass) (rest : List Pass)
    (hres : resolvePasses registry cfg.passNames = Except.ok (p1 :: rest))
    (hok : (mainRun env registry pats cfg).result = Except.ok ()) :
    (mainRun env registry pats cfg).trace
      = Phase.rank p1.name cfg.n
          :: (p1 :: rest).map (fun p => Phase.compare p.name)
          ++ [Phase.render]
    ∧ (mainRun env registry pats cfg).trace.countP isRank = 1 := by
  have h := (mainRun_ok env registry pats cfg p1 rest hres hok).1
  refine ⟨h, ?_⟩
  rw [h]
  simp [List.countP_cons, List.countP_append, countP_isRank_map_compare,
    isRank]

/-- C4 witness: on the concrete two-pass run the trace is one ranking call
with the first pass, one comparison per pass, then rendering. -/
theorem c4_rank_first_compare_all_witness :
    (mainRun env0 reg0 [] cfg2).trace
      = [Phase.rank "structure" 50, Phase.compare "structure",
          Phase.compare "text", Phase.render]
    ∧ (mainRun env0 reg0 [] cfg2).trace.countP isRank = 1 := by
  have h := c4_rank_first_compare_all env0 reg0 [] cfg2
    ⟨"structure", ["normalize"]⟩ [⟨"text", ["strip"]⟩] (by decide) (by decide)
  exact ⟨h.1.trans (by decide), h.2⟩

/-- C5 counterexample: an uncaught `FileNotFoundError` is not a domain error
(neither the core's nor lib50's `Error` type), yet it is reported with the
specific message `<filename> not found`, not with the fixed generic
message, contradicting the claim that every non-domain exception gets the
generic message. -/
theorem c5_reporting_counterexample :
    fnfExc.isApiError = false ∧ fnfExc.isLib50Error = false
    ∧ (excepthook false fnfExc).message = some "missing.txt not found"
    ∧ (excepthook false fnfExc).message ≠ some genericMsg
    ∧ (excepthook false fnfExc).message ≠ some fnfExc.msg := by
  decide

/-- C5 (amended): a domain error (core or lib50 `Error` with arguments) is
reported with its concise message; a `FileNotFoundError` is reported with
`<filename> not found`; a `BaseException` that is neither an `Exception`
nor a `KeyboardInterrupt` is let go silently — no message, no traceback, no
exit; every other exception is reported with the fixed generic message.
The traceback is printed only when verbose mode is on, and whenever the
hook exits, the exit code is 1. -/
theorem c5_error_reporting (verbose : Bool) (e : Exc) :
    (((e.isApiError || e.isLib50Error) && e.hasArgs) = true →
        excepthook verbose e = ⟨some e.msg, verbose, some 1⟩)
    ∧ (((e.isApiError || e.isLib50Error) && e.hasArgs) = false →
        e.isFileNotFound = true →
        excepthook verbose e
          = ⟨some (e.filename ++ " not found"), verbose, some 1⟩)
    ∧ (((e.isApiError || e.isLib50Error) && e.hasArgs) = false →
        e.isFileNotFound = false →
        e.subclassOfException = false → e.isKeyboardInterrupt = false →
        excepthook verbose e = ⟨none, false, none⟩)
    ∧ (((e.isApiError || e.isLib50Error) && e.hasArgs) = false →
        e.isFileNotFound = false →
        (e.subclassOfException = true ∨ e.isKeyboardInterrupt = true) →
        excepthook verbose e = ⟨some genericMsg, verbose, some 1⟩)
    ∧ ((excepthook verbose e).tracebackPrinted = true → verbose = true)
    ∧ (∀ c, (excepthook verbose e).exitCode = some c → c = 1) := by
  refine ⟨?_, ?_, ?_, ?_, ?_, ?_⟩
  · intro h1
    rw [excepthook, if_pos h1]
  · intro h1 h2
    rw [excepthook, if_neg (by simp [h1]), if_pos h2]
  · intro h1 h2 h3 h4
    rw [excepthook, if_neg (by simp [h1]), if_neg (by simp [h2]),
      if_pos (by simp [h3, h4])]
  · intro h1 h2 h3
    rw [excepthook, if_neg (by simp [h1]), if_neg (by simp [h2]),
      if_neg (by rcases h3 with h3 | h3 <;> simp [h3])]
  · rw [excepthook]
    split_ifs <;> intro h <;> simp_all
  · intro c hc
    rw [excepthook] at hc
    split_ifs at hc <;> simp_all

/-- C5 (amended) witness: the concrete `FileNotFoundError` is reported with
its filename-specific message, traceback suppressed, exit code 1. -/
theorem c5_error_reporting_witness :
    excepthook false fnfExc
      = ⟨some ("missing.txt" ++ " not found"), false, some 1⟩
    ∧ (1 : Nat) = 1 :=
  ⟨(c5_error_reporting false fnfExc).2.1 (by decide) (by decide),
    (c5_error_reporting false fnfExc).2.2.2.2.2 1 (by decide)⟩

/-- C10: the match count defaults to 50 when `-n` is not supplied and is the
supplied integer otherwise, and the single ranking call of a successful run
receives exactly that value. -/
theorem c10_match_count (env : Env) (registry : List Pass)
    (pats : List FilePattern) (cfg : Config) (p1 : Pass) (rest : List Pass)
    (opt : Option Int)
    (hres : resolvePasses registry cfg.passNames = Except.ok (p1 :: rest))
    (hok : (mainRun env registry pats cfg).result = Except.ok ())
    (hn : cfg.n = parseN opt) :
    parseN none = 50 ∧ (∀ k, parseN (some k) = k)
    ∧ (mainRun env registry pats cfg).trace.head?
        = some (Phase.rank p1.name (parseN opt)) := by
  refine ⟨rfl, fun k => rfl, ?_⟩
  rw [(mainRun_ok env registry pats cfg p1 rest hres hok).1, ← hn]
  rfl

/-- C10 witness: on the concrete run, whose `n` is the default, the ranking
call receives 50. -/
theorem c10_match_count_witness :
    parseN none = 50
    ∧ (mainRun env0 reg0 [] cfg2).trace.head?
        = some (Phase.rank "structure" (parseN none)) := by
  have h := c10_match_count env0 reg0 [] cfg2
    ⟨"structure", ["normalize"]⟩ [⟨"text", ["strip"]⟩] none
    (by decide) (by decide) (by decide)
  exact ⟨h.1, h.2.2⟩

end Compare50
